import Mathlib

/-!
Verification development for the resume-tailoring backend (`app.py`).

The file shallowly embeds the two core functions of the repository —
`parse_ai_response` (AI-reply parser) and `format_resume_for_ai`
(resume-to-prompt formatter) — together with the body of the
`/api/analyze` request handler, and proves the specification claims
about them.

Modelling conventions:
* Python strings are Lean `String`s; the parser works on `List Char`
  internally (Python indexing/slicing is per-character, as is ours).
* Python's `str.strip()` and the regex class `\s` are modelled over the
  ASCII whitespace characters (space, tab, `\n`, `\r`, `\x0b`, `\x0c`);
  the inputs of interest contain no exotic Unicode whitespace.
* `re.IGNORECASE` matching of the fixed ASCII markers `SUMMARY:` /
  `EXPERIENCE:` is modelled by ASCII lowercasing of both sides.
* In the summary regex `SUMMARY:(.*?)(?=EXPERIENCE:|$)` and in
  `EXPERIENCE:(.*?)$`, the anchor `$` (no `re.MULTILINE`) can also match
  just before a final newline; since the captured group is immediately
  `.strip()`-ed, capturing up to end-of-string is extensionally
  identical and is what we model.
* Fallible Python code (attribute errors, type errors …) is embedded in
  `Except String`.
-/

/-! ## Python-style character and string primitives -/

/-- Python's `\s` / `str.strip` whitespace, restricted to ASCII. -/
def pyIsSpace (c : Char) : Bool :=
  c = ' ' || c = '\t' || c = '\n' || c = '\x0d' || c = '\x0b' || c = '\x0c'

/-- ASCII lowercasing, for `re.IGNORECASE` marker matching. -/
def asciiLower (c : Char) : Char :=
  if 'A' ≤ c ∧ c ≤ 'Z' then Char.ofNat (c.toNat + 32) else c

/-- Python `str.strip()` on a character list. -/
def stripL (l : List Char) : List Char :=
  ((l.dropWhile pyIsSpace).reverse.dropWhile pyIsSpace).reverse

/-- Does `pat` match case-insensitively at the head of `l`? -/
def matchesCI : List Char → List Char → Bool
  | [], _ => true
  | _ :: _, [] => false
  | p :: ps, c :: cs => asciiLower p = asciiLower c && matchesCI ps cs

/-- Index of the first case-insensitive occurrence of `pat` in `l`
(the semantics of `re.search` for a fixed-text pattern under
`re.IGNORECASE`). -/
def findCI (pat : List Char) : List Char → Option Nat
  | [] => if matchesCI pat [] then some 0 else none
  | c :: t => if matchesCI pat (c :: t) then some 0 else (findCI pat t).map (· + 1)

/-- True when `pat` occurs (case-insensitively) somewhere in the string `s`. -/
def containsCI (s : String) (pat : List Char) : Bool :=
  (findCI pat s.toList).isSome

/-- Python `str.split('\n')` on a character list. -/
def splitOnNl : List Char → List (List Char)
  | [] => [[]]
  | c :: t => if c = '\n' then [] :: splitOnNl t else (splitOnNl t).modifyHead (c :: ·)

/-! ## The parser (`parse_ai_response`, app.py lines 224–279) -/

/-- The `SUMMARY:` marker of the prompt contract. -/
def summaryMarker : List Char := "SUMMARY:".toList

/-- The `EXPERIENCE:` marker of the prompt contract. -/
def expMarker : List Char := "EXPERIENCE:".toList

/-- Semantics of `re.sub(r'^\s*•\s*', '', t)` with no `re.MULTILINE`: remove leading
whitespace, a single `•` and the whitespace after it — only when the
first non-whitespace character is `•` (otherwise the text is returned
unchanged). -/
def stripLeadBullet (l : List Char) : List Char :=
  match l.dropWhile pyIsSpace with
  | c :: rest => if c = '•' then rest.dropWhile pyIsSpace else l
  | [] => l

/-- Worker for `re.sub(r'\s+', ' ', t)`: the flag records whether we are
inside a whitespace run that has already emitted its single space. -/
def collapseGo : Bool → List Char → List Char
  | _, [] => []
  | skipping, c :: t =>
    if pyIsSpace c then
      if skipping then collapseGo true t else ' ' :: collapseGo true t
    else c :: collapseGo false t

/-- Semantics of `re.sub(r'\s+', ' ', t)`: each maximal whitespace run becomes one space. -/
def collapseWs (l : List Char) : List Char := collapseGo false l

/-- First character of the char class `[^\s•\-*]`: a line beginning with
such a character starts a new company block (`re.split(r'\n(?=[^\s•\-*])', …)`). -/
def isBlockStart (c : Char) : Bool :=
  !(pyIsSpace c || c = '•' || c = '-' || c = '*')

/-- Does the (nonempty) remainder begin with a block-start character?
(The lookahead fails at end of text.) -/
def nextIsBlockStart : List Char → Bool
  | c :: _ => isBlockStart c
  | [] => false

/-- Semantics of `re.split(r'\n(?=[^\s•\-*])', text)`: split at every newline that is
immediately followed by a block-start character; the newline is consumed,
the following character is kept. -/
def splitBlocks : List Char → List (List Char)
  | [] => [[]]
  | c :: t =>
    if c = '\n' && nextIsBlockStart t then [] :: splitBlocks t
    else (splitBlocks t).modifyHead (c :: ·)

/-- One parsed work-experience entry. -/
structure WorkExp where
  company : String
  bulletPoints : List String
deriving DecidableEq, Repr

/-- The parser's structured result. -/
structure TailoredContent where
  summary : String
  workExperience : List WorkExp
deriving DecidableEq, Repr

/-- The bullet-line test of app.py lines 260–266: strip the line, check
that its first character is `•`, `-` or `*`, drop that character, strip
again; an empty remainder is dropped (`if point:`). -/
def bulletOf (ln : List Char) : Option (List Char) :=
  match stripL ln with
  | c :: rest =>
    if c = '•' || c = '-' || c = '*' then
      let point := stripL rest
      if point.isEmpty then none else some point
    else none
  | [] => none

/-- Process one company section (app.py lines 249–272): skip
whitespace-only sections, take the stripped first line as the company
name, collect bullet lines, keep the block only if both the company name
and the bullet list are nonempty, and cap bullets at 4. -/
def processSection (sec : List Char) : Option WorkExp :=
  if (stripL sec).isEmpty then none
  else
    match splitOnNl (stripL sec) with
    | [] => none
    | l0 :: rest =>
      let company := stripL l0
      let bullet_points := rest.filterMap bulletOf
      if company.isEmpty || bullet_points.isEmpty then none
      else some ⟨company.asString, (bullet_points.take 4).map List.asString⟩

/-- Characters kept by `re.sub(r'[*"]', '', t)`. -/
def notNoise (c : Char) : Bool := !(c = '*' || c = '"')

/-- app.py lines 226–272: the parse result *before* the final
special-character removal pass. -/
def parse_core (s : String) : TailoredContent :=
  let cs := s.toList
  let summary :=
    match findCI summaryMarker cs with
    | none => ""
    | some i =>
      let rest := cs.drop (i + summaryMarker.length)
      let stop := (findCI expMarker rest).getD rest.length
      (collapseWs (stripLeadBullet (stripL (rest.take stop)))).asString
  let workExperience :=
    match findCI expMarker cs with
    | none => []
    | some i =>
      let body := stripL (cs.drop (i + expMarker.length))
      (splitBlocks body).filterMap processSection
  ⟨summary, workExperience⟩

/-- app.py lines 274–277: remove every `*` and `"` from the summary and
from each bullet point (companies are left untouched). -/
def postNoise (t : TailoredContent) : TailoredContent :=
  ⟨(t.summary.toList.filter notNoise).asString,
   t.workExperience.map fun e =>
     ⟨e.company, e.bulletPoints.map fun bp => (bp.toList.filter notNoise).asString⟩⟩

/-- The function `parse_ai_response` (app.py lines 224–279). -/
def parse_ai_response (s : String) : TailoredContent :=
  postNoise (parse_core s)

example : parse_ai_response "hello world" = ⟨"", []⟩ := by decide

example :
    parse_ai_response "SUMMARY:\n  A  strong\ncandidate.\nEXPERIENCE:\nAcme\n• Did X\n• Did Y" =
      ⟨"A strong candidate.", [⟨"Acme", ["Did X", "Did Y"]⟩]⟩ := by decide

/-! ## Parser helper lemmas -/

theorem toList_asString (l : List Char) : (List.asString l).toList = l := rfl

theorem asString_ne_empty {l : List Char} (h : l ≠ []) : List.asString l ≠ "" := by
  intro hc
  exact h (congrArg String.toList hc)

/-- Inversion for `processSection`: a produced entry is a nonempty
company name together with the first (at most) 4 bullet points. -/
theorem processSection_some {sec : List Char} {e : WorkExp}
    (h : processSection sec = some e) :
    ∃ (company : List Char) (bps : List (List Char)),
      company ≠ [] ∧ bps ≠ [] ∧
      e.company = company.asString ∧
      e.bulletPoints = (bps.take 4).map List.asString := by
  unfold processSection at h
  split at h
  · exact absurd h (by simp)
  · split at h
    · exact absurd h (by simp)
    · rename_i l0 rest heq
      dsimp only at h
      split at h
      · exact absurd h (by simp)
      · rename_i hne
        simp only [Bool.or_eq_true, not_or, List.isEmpty_iff] at hne
        obtain rfl : e = ⟨(stripL l0).asString,
            ((rest.filterMap bulletOf).take 4).map List.asString⟩ :=
          (Option.some.inj h).symm
        exact ⟨stripL l0, rest.filterMap bulletOf, hne.1, hne.2, rfl, rfl⟩

/-- Membership in the pre-noise parse's work experience comes from some
company section. -/
theorem mem_parse_core_wE {s : String} {e : WorkExp}
    (h : e ∈ (parse_core s).workExperience) :
    ∃ sec, processSection sec = some e := by
  unfold parse_core at h
  simp only at h
  cases hf : findCI expMarker s.toList with
  | none => rw [hf] at h; simp at h
  | some i =>
    rw [hf] at h
    obtain ⟨sec, _, hsec⟩ := List.mem_filterMap.mp h
    exact ⟨sec, hsec⟩

/-- Membership in the final parse's work experience: the entry is the
noise-stripped image of a pre-noise entry with the same company. -/
theorem mem_parse_wE {s : String} {e : WorkExp}
    (h : e ∈ (parse_ai_response s).workExperience) :
    ∃ e', e' ∈ (parse_core s).workExperience ∧
      e.company = e'.company ∧
      e.bulletPoints = e'.bulletPoints.map fun bp => (bp.toList.filter notNoise).asString := by
  unfold parse_ai_response postNoise at h
  simp only [List.mem_map] at h
  obtain ⟨e', he', rfl⟩ := h
  exact ⟨e', he', rfl, rfl⟩

/-- Whitespace surviving the collapse pass is always a single space. -/
theorem collapseGo_space :
    ∀ (l : List Char) (b : Bool) (c : Char),
      c ∈ collapseGo b l → pyIsSpace c = true → c = ' ' := by
  intro l
  induction l with
  | nil => intro b c hc; simp [collapseGo] at hc
  | cons hd tl ih =>
    intro b c hc hsp
    unfold collapseGo at hc
    by_cases hhd : pyIsSpace hd
    · rw [if_pos hhd] at hc
      cases b with
      | true => exact ih true c hc hsp
      | false =>
        rcases List.mem_cons.mp hc with h | h
        · exact h
        · exact ih true c h hsp
    · rw [if_neg hhd] at hc
      rcases List.mem_cons.mp hc with h | h
      · subst h; exact absurd hsp (by simpa using hhd)
      · exact ih false c h hsp

/-- Every whitespace character of the returned summary is a plain space
(newlines and tabs are collapsed away). -/
theorem parse_summary_space {s : String} {c : Char}
    (hc : c ∈ (parse_ai_response s).summary.toList)
    (hsp : pyIsSpace c = true) : c = ' ' := by
  unfold parse_ai_response postNoise parse_core at hc
  simp only at hc
  cases hf : findCI summaryMarker s.toList with
  | none =>
    rw [hf] at hc
    simp [List.asString, String.toList] at hc
  | some i =>
    rw [hf] at hc
    rw [toList_asString] at hc
    have hmem := (List.mem_filter.mp hc).1
    rw [toList_asString] at hmem
    exact collapseGo_space _ false c hmem hsp

/-! ## Claim theorems for the parser -/

/-- C1: `parse_ai_response` is a total Lean function (it terminates on
every input and raises nothing by construction), and on any input that
contains neither a `SUMMARY:` marker nor an `EXPERIENCE:` marker
(case-insensitively) it returns exactly the default structure
`{summary := "", workExperience := []}`. -/
theorem parse_markerless_default (s : String)
    (h1 : containsCI s summaryMarker = false)
    (h2 : containsCI s expMarker = false) :
    parse_ai_response s = ⟨"", []⟩ := by
  have e1 : findCI summaryMarker s.toList = none := by
    cases hf : findCI summaryMarker s.toList with
    | none => rfl
    | some i => rw [containsCI, hf] at h1; simp at h1
  have e2 : findCI expMarker s.toList = none := by
    cases hf : findCI expMarker s.toList with
    | none => rfl
    | some i => rw [containsCI, hf] at h2; simp at h2
  unfold parse_ai_response parse_core postNoise
  simp only [e1, e2]
  rfl

/-- Witness for C1 at the concrete marker-free input `"hello world"`. -/
theorem parse_markerless_default_witness :
    containsCI "hello world" summaryMarker = false ∧
    containsCI "hello world" expMarker = false ∧
    parse_ai_response "hello world" = ⟨"", []⟩ :=
  ⟨by decide, by decide,
   parse_markerless_default "hello world" (by decide) (by decide)⟩

/-- C3: every work-experience entry produced by `parse_ai_response` has
at most 4 bullet points, and a company block with 6 bullet lines yields
exactly the first 4 bullets in encountered order. -/
theorem parse_bullet_cap :
    (∀ (s : String) (e : WorkExp), e ∈ (parse_ai_response s).workExperience →
      e.bulletPoints.length ≤ 4) ∧
    parse_ai_response "EXPERIENCE:\nAcme\n• P1\n• P2\n• P3\n• P4\n• P5\n• P6" =
      ⟨"", [⟨"Acme", ["P1", "P2", "P3", "P4"]⟩]⟩ := by
  constructor
  · intro s e he
    obtain ⟨e', he', _, hbp⟩ := mem_parse_wE he
    obtain ⟨comp, bps, _, _, _, hbp'⟩ := processSection_some (mem_parse_core_wE he').choose_spec
    rw [hbp, hbp']
    simp [List.length_take]
  · decide

/-- Witness for C3 on a concrete parse with an entry in scope. -/
theorem parse_bullet_cap_witness :
    (⟨"Acme", ["P1", "P2", "P3", "P4"]⟩ : WorkExp) ∈
      (parse_ai_response "EXPERIENCE:\nAcme\n• P1\n• P2\n• P3\n• P4\n• P5\n• P6").workExperience ∧
    (⟨"Acme", ["P1", "P2", "P3", "P4"]⟩ : WorkExp).bulletPoints.length ≤ 4 :=
  ⟨by decide,
   parse_bullet_cap.1 "EXPERIENCE:\nAcme\n• P1\n• P2\n• P3\n• P4\n• P5\n• P6" _ (by decide)⟩

/-- C4 counterexample: the claim that the returned summary contains no
embedded markdown bullet-marker characters is false — a leading `-` is
not stripped (only `•` is), and an embedded `•` survives to the output. -/
theorem parse_summary_bullet_cex :
    (parse_ai_response "SUMMARY:\n- a • b").summary = "- a • b" ∧
    '•' ∈ (parse_ai_response "SUMMARY:\n- a • b").summary.toList ∧
    '-' ∈ (parse_ai_response "SUMMARY:\n- a • b").summary.toList := by
  refine ⟨by decide, by decide, by decide⟩

/-- C4 amended: during normalization only a single *leading* `•` marker
is stripped from the captured summary span (leading `-` or `*` markers
and embedded `•`/`-` characters are kept; `*` and `"` are later removed
everywhere by the noise pass); runs of whitespace are collapsed so that
every whitespace character of the returned summary is a single space, as
the concrete normalization example shows. -/
theorem parse_summary_normalization :
    (∀ (s : String) (c : Char), c ∈ (parse_ai_response s).summary.toList →
      pyIsSpace c = true → c = ' ') ∧
    parse_ai_response "SUMMARY:\n  •  Led  the\nteam  " = ⟨"Led the team", []⟩ := by
  exact ⟨fun s c hc hsp => parse_summary_space hc hsp, by decide⟩

/-- Witness for the amended C4 at a concrete input containing summary
whitespace. -/
theorem parse_summary_normalization_witness :
    ' ' ∈ (parse_ai_response "SUMMARY: a b").summary.toList ∧
    pyIsSpace ' ' = true ∧ (' ' : Char) = ' ' :=
  ⟨by decide, by decide,
   parse_summary_normalization.1 "SUMMARY: a b" ' ' (by decide) (by decide)⟩

/-- C5: neither the summary nor any bullet-point string of any
work-experience entry returned by `parse_ai_response` contains a literal
`*` or `"` character. -/
theorem parse_no_noise_chars :
    ∀ (s : String),
      ('*' ∉ (parse_ai_response s).summary.toList ∧
       '"' ∉ (parse_ai_response s).summary.toList) ∧
      ∀ e ∈ (parse_ai_response s).workExperience,
        ∀ bp ∈ e.bulletPoints, '*' ∉ bp.toList ∧ '"' ∉ bp.toList := by
  intro s
  constructor
  · constructor
    · intro hmem
      unfold parse_ai_response postNoise at hmem
      rw [toList_asString] at hmem
      exact absurd (List.mem_filter.mp hmem).2 (by decide)
    · intro hmem
      unfold parse_ai_response postNoise at hmem
      rw [toList_asString] at hmem
      exact absurd (List.mem_filter.mp hmem).2 (by decide)
  · intro e he bp hbp
    obtain ⟨e', _, _, hbps⟩ := mem_parse_wE he
    rw [hbps] at hbp
    obtain ⟨bp', _, rfl⟩ := List.mem_map.mp hbp
    rw [toList_asString]
    constructor
    · intro hmem
      exact absurd (List.mem_filter.mp hmem).2 (by decide)
    · intro hmem
      exact absurd (List.mem_filter.mp hmem).2 (by decide)

/-- Witness for C5 at a concrete input with an entry and bullet in scope. -/
theorem parse_no_noise_chars_witness :
    (⟨"Acme", ["xy"]⟩ : WorkExp) ∈
      (parse_ai_response "EXPERIENCE:\nAcme\n- x*\"y").workExperience ∧
    "xy" ∈ (⟨"Acme", ["xy"]⟩ : WorkExp).bulletPoints ∧
    '*' ∉ "xy".toList ∧ '"' ∉ "xy".toList := by
  refine ⟨by decide, by decide, ?_⟩
  exact (parse_no_noise_chars "EXPERIENCE:\nAcme\n- x*\"y").2
    ⟨"Acme", ["xy"]⟩ (by decide) "xy" (by decide)

/-- C6: every returned work-experience entry has a nonempty company name
and a nonempty bullet list; a whitespace-only company block, a block with
zero bullet lines, and a bullet line that is empty after marker-stripping
are all dropped, as the concrete inputs show. -/
theorem parse_entries_nonempty :
    (∀ (s : String), ∀ e ∈ (parse_ai_response s).workExperience,
      e.company ≠ "" ∧ e.bulletPoints ≠ []) ∧
    parse_ai_response "EXPERIENCE:\n   \n  " = ⟨"", []⟩ ∧
    parse_ai_response "EXPERIENCE:\nAcme\nno bullet lines here" = ⟨"", []⟩ ∧
    parse_ai_response "EXPERIENCE:\nAcme\n-   \n- real" = ⟨"", [⟨"Acme", ["real"]⟩]⟩ := by
  refine ⟨?_, by decide, by decide, by decide⟩
  intro s e he
  obtain ⟨e', he', hcomp, hbps⟩ := mem_parse_wE he
  obtain ⟨sec, hsec⟩ := mem_parse_core_wE he'
  obtain ⟨comp, bps, hcne, hbne, hcomp', hbps'⟩ := processSection_some hsec
  constructor
  · rw [hcomp, hcomp']
    exact asString_ne_empty hcne
  · rw [hbps, hbps']
    simp [List.map_eq_nil_iff, List.take_eq_nil_iff, hbne]

/-- Witness for C6 at a concrete entry. -/
theorem parse_entries_nonempty_witness :
    (⟨"Acme", ["real"]⟩ : WorkExp) ∈
      (parse_ai_response "EXPERIENCE:\nAcme\n-   \n- real").workExperience ∧
    (⟨"Acme", ["real"]⟩ : WorkExp).company ≠ "" ∧
    (⟨"Acme", ["real"]⟩ : WorkExp).bulletPoints ≠ [] :=
  ⟨by decide,
   parse_entries_nonempty.1 "EXPERIENCE:\nAcme\n-   \n- real" _ (by decide)⟩

/-- C9: the final noise-stripping pass leaves the company field of every
work-experience entry untouched — the companies of `parse_ai_response`
are exactly the companies of the pre-noise `parse_core` result — and a
company name keeps its `*` and `"` characters while a bullet point loses
them, as the concrete input shows. The company is the trimmed first line
of its block (trailing spaces are removed, noise characters are not). -/
theorem parse_company_frame :
    (∀ (s : String),
      (parse_ai_response s).workExperience.map WorkExp.company =
        (parse_core s).workExperience.map WorkExp.company) ∧
    parse_ai_response "EXPERIENCE:\nA*c\"me  \n- x*\"y" =
      ⟨"", [⟨"A*c\"me", ["xy"]⟩]⟩ := by
  constructor
  · intro s
    unfold parse_ai_response postNoise
    rw [List.map_map]
    rfl
  · decide

/-- C10: because the empty-bullet filter runs before the noise-stripping
pass, a bullet line whose content after marker-stripping consists only of
`*`/`"` characters survives the non-empty check and is then reduced to
the empty string: `parse_ai_response` really does return an entry whose
bullet point is `""`. -/
theorem parse_empty_bullet_possible :
    parse_ai_response "EXPERIENCE:\nAcme\n- *" = ⟨"", [⟨"Acme", [""]⟩]⟩ ∧
    "" ∈ ((parse_ai_response "EXPERIENCE:\nAcme\n- *").workExperience.map
      WorkExp.bulletPoints).flatten := by
  refine ⟨by decide, by decide⟩

/-! ## Python values and primitives for the formatter

`format_resume_for_ai` receives arbitrary JSON-decoded Python data, so
its embedding works on a dynamic value type; operations that can raise
(`.get` on a non-dict, subscripting, iteration, `in`) live in
`Except String`.  Python `repr` of strings is modelled without escape
sequences (no claim depends on the rendering of nested containers). -/

inductive PyVal where
  | none : PyVal
  | bool : Bool → PyVal
  | int : Int → PyVal
  | str : String → PyVal
  | list : List PyVal → PyVal
  | dict : List (String × PyVal) → PyVal

/-- The single-quote character used by Python `repr` of strings. -/
def squote : Char := Char.ofNat 39

mutual

/-- Python `repr` (used by `str()` for elements of containers). -/
def pyRepr : PyVal → List Char
  | .none => "None".toList
  | .bool b => if b then "True".toList else "False".toList
  | .int i => (toString i).toList
  | .str s => squote :: s.toList ++ [squote]
  | .list xs => '[' :: pyReprList xs ++ [']']
  | .dict kvs => '\x7b' :: pyReprDict kvs ++ ['\x7d']

/-- Python `repr` of a list body (comma-separated). -/
def pyReprList : List PyVal → List Char
  | [] => []
  | [x] => pyRepr x
  | x :: y :: rest => pyRepr x ++ (',' :: ' ' :: pyReprList (y :: rest))

/-- Python `repr` of a dict body (comma-separated `'k': v` pairs). -/
def pyReprDict : List (String × PyVal) → List Char
  | [] => []
  | [(k, v)] => squote :: k.toList ++ (squote :: ':' :: ' ' :: pyRepr v)
  | (k, v) :: e :: rest =>
    (squote :: k.toList ++ (squote :: ':' :: ' ' :: pyRepr v)) ++
      (',' :: ' ' :: pyReprDict (e :: rest))

end

/-- Python `str()`, as used by f-string interpolation. -/
def pyStr : PyVal → List Char
  | .str s => s.toList
  | v => pyRepr v

/-- Python truthiness. -/
def pyTruthy : PyVal → Bool
  | .none => false
  | .bool b => b
  | .int i => decide (i ≠ 0)
  | .str s => !s.isEmpty
  | .list xs => !xs.isEmpty
  | .dict kvs => !kvs.isEmpty

/-- Key lookup in a dict (our literals carry distinct keys, so
first-match lookup coincides with Python dict semantics). -/
def dictLookup : List (String × PyVal) → String → Option PyVal
  | [], _ => Option.none
  | (k, v) :: rest, key => if k = key then some v else dictLookup rest key

/-- Case-sensitive substring test (Python `in` on strings). -/
def containsSub (pat : List Char) : List Char → Bool
  | [] => pat.isEmpty
  | c :: t => pat.isPrefixOf (c :: t) || containsSub pat t

/-- Python `==` between a string and an arbitrary value. -/
def eqStrVal (k : String) : PyVal → Bool
  | .str s => k = s
  | _ => false

/-- Python `k in v`: key test for dicts, membership for lists, substring
for strings; `TypeError` otherwise. -/
def pyIn (k : String) : PyVal → Except String Bool
  | .dict kvs => .ok (dictLookup kvs k).isSome
  | .list xs => .ok (xs.any (eqStrVal k))
  | .str s => .ok (containsSub k.toList s.toList)
  | _ => .error "TypeError: argument is not iterable"

/-- Python `v[k]` for a string key. -/
def pyGetItem : PyVal → String → Except String PyVal
  | .dict kvs, k =>
    match dictLookup kvs k with
    | some v => .ok v
    | Option.none => .error "KeyError"
  | _, _ => .error "TypeError: object is not subscriptable by a string"

/-- Python `v.get(k, default)` — dicts only; any other value raises
`AttributeError`. -/
def pyGet : PyVal → String → PyVal → Except String PyVal
  | .dict kvs, k, dflt => .ok ((dictLookup kvs k).getD dflt)
  | _, _, _ => .error "AttributeError: object has no attribute get"

/-- Python iteration: list elements, string characters, dict keys. -/
def pyIterElems : PyVal → Except String (List PyVal)
  | .list xs => .ok xs
  | .str s => .ok (s.toList.map fun c => .str (String.mk [c]))
  | .dict kvs => .ok (kvs.map fun kv => .str kv.fst)
  | _ => .error "TypeError: object is not iterable"

/-! ## The formatter (`format_resume_for_ai`, app.py lines 155–222)

Python appends lines to one shared list and joins with newlines at the
end; an exception anywhere aborts the whole call, so the returned value
is faithfully modelled as the concatenation of per-section renderings in
`Except String`. -/

/-- The five section labels, as emitted line values. -/
def profileLabel : List Char := "PROFILE:".toList

/-- The `WORK EXPERIENCE:` section label. -/
def weLabel : List Char := "WORK EXPERIENCE:".toList

/-- The `EDUCATION:` section label. -/
def eduLabel : List Char := "EDUCATION:".toList

/-- The `SKILLS:` section label. -/
def skillsLabel : List Char := "SKILLS:".toList

/-- The `PROJECTS:` section label. -/
def projLabel : List Char := "PROJECTS:".toList

/-- Is this emitted line one of the five section labels? -/
def isLabel (l : List Char) : Bool :=
  decide (l = profileLabel) || decide (l = weLabel) || decide (l = eduLabel) ||
    decide (l = skillsLabel) || decide (l = projLabel)

/-- The `'N/A'` placeholder default of every labeled `.get`. -/
def naDefault : PyVal := .str "N/A"

/-- app.py lines 160–169: the PROFILE section. -/
def profileSection (resume_data : PyVal) : Except String (List (List Char)) := do
  let b ← pyIn "profile" resume_data
  if b then
    let profile ← pyGetItem resume_data "profile"
    let nameV ← pyGet profile "name" naDefault
    let emailV ← pyGet profile "email" naDefault
    let phoneV ← pyGet profile "phone" naDefault
    let locV ← pyGet profile "location" naDefault
    let urlV ← pyGet profile "url" naDefault
    let sumV ← pyGet profile "summary" naDefault
    pure [profileLabel,
      "Name: ".toList ++ pyStr nameV,
      "Email: ".toList ++ pyStr emailV,
      "Phone: ".toList ++ pyStr phoneV,
      "Location: ".toList ++ pyStr locV,
      "URL: ".toList ++ pyStr urlV,
      "Summary: ".toList ++ pyStr sumV,
      []]
  else
    pure []

/-- The `Descriptions:` block shared by work/education/project entries
(`if 'descriptions' in x and x['descriptions']: …`). -/
def descriptionLines (e : PyVal) : Except String (List (List Char)) := do
  let b ← pyIn "descriptions" e
  if b then
    let ds ← pyGetItem e "descriptions"
    if pyTruthy ds then
      let items ← pyIterElems ds
      pure ("Descriptions:".toList :: items.map fun d => '-' :: ' ' :: pyStr d)
    else pure []
  else pure []

/-- One WORK EXPERIENCE entry (app.py lines 175–182). -/
def expEntryLines (exp : PyVal) : Except String (List (List Char)) := do
  let c ← pyGet exp "company" naDefault
  let j ← pyGet exp "jobTitle" naDefault
  let d ← pyGet exp "date" naDefault
  let descs ← descriptionLines exp
  pure (("Company: ".toList ++ pyStr c) ::
        ("Job Title: ".toList ++ pyStr j) ::
        ("Date: ".toList ++ pyStr d) :: (descs ++ [[]]))

/-- One EDUCATION entry (app.py lines 188–195). -/
def eduEntryLines (edu : PyVal) : Except String (List (List Char)) := do
  let s ← pyGet edu "school" naDefault
  let d ← pyGet edu "degree" naDefault
  let dt ← pyGet edu "date" naDefault
  let descs ← descriptionLines edu
  pure (("School: ".toList ++ pyStr s) ::
        ("Degree: ".toList ++ pyStr d) ::
        ("Date: ".toList ++ pyStr dt) :: (descs ++ [[]]))

/-- One PROJECTS entry (app.py lines 214–220). -/
def projEntryLines (proj : PyVal) : Except String (List (List Char)) := do
  let p ← pyGet proj "project" naDefault
  let dt ← pyGet proj "date" naDefault
  let descs ← descriptionLines proj
  pure (("Project: ".toList ++ pyStr p) ::
        ("Date: ".toList ++ pyStr dt) :: (descs ++ [[]]))

/-- Sequential rendering of a list of entries; an exception at any entry
aborts the whole call, as in Python. -/
def entriesLines (f : PyVal → Except String (List (List Char))) :
    List PyVal → Except String (List (List Char))
  | [] => pure []
  | e :: rest => do
    let l ← f e
    let r ← entriesLines f rest
    pure (l ++ r)

/-- A `label` section guarded by `if key in resume_data and
resume_data[key]:` followed by a per-entry loop (the shape of the WORK
EXPERIENCE, EDUCATION and PROJECTS sections). -/
def seqSection (label : List Char) (f : PyVal → Except String (List (List Char)))
    (key : String) (resume_data : PyVal) : Except String (List (List Char)) := do
  let b ← pyIn key resume_data
  if b then
    let v ← pyGetItem resume_data key
    if pyTruthy v then
      let items ← pyIterElems v
      let ls ← entriesLines f items
      pure (label :: ls)
    else pure []
  else pure []

/-- Featured-skill lines (app.py lines 200–203): emit `- skill` only for
entries whose `skill` value is truthy. -/
def featuredSkillLines : List PyVal → Except String (List (List Char))
  | [] => pure []
  | s :: rest => do
    let v ← pyGet s "skill" PyVal.none
    let r ← featuredSkillLines rest
    pure ((if pyTruthy v then [('-' :: ' ' :: pyStr v)] else []) ++ r)

/-- app.py lines 200–203: the featured-skill lines, emitted when the
`featuredSkills` key is present (no truthiness check before iterating). -/
def skillsFeatured (sk : PyVal) : Except String (List (List Char)) := do
  let hasF ← pyIn "featuredSkills" sk
  if hasF then
    let fs ← pyGetItem sk "featuredSkills"
    let items ← pyIterElems fs
    featuredSkillLines items
  else pure []

/-- app.py lines 205–207: the free-text skill description lines, emitted
when the `descriptions` key is present (no truthiness check). -/
def skillsDescs (sk : PyVal) : Except String (List (List Char)) := do
  let hasD ← pyIn "descriptions" sk
  if hasD then
    let ds ← pyGetItem sk "descriptions"
    let items ← pyIterElems ds
    pure (items.map fun d => '-' :: ' ' :: pyStr d)
  else pure []

/-- app.py lines 198–208: the SKILLS section (guarded only by key
presence). -/
def skillsSection (resume_data : PyVal) : Except String (List (List Char)) := do
  let b ← pyIn "skills" resume_data
  if b then
    let sk ← pyGetItem resume_data "skills"
    let fLines ← skillsFeatured sk
    let dLines ← skillsDescs sk
    pure (skillsLabel :: (fLines ++ dLines ++ [[]]))
  else pure []

/-- The full line list built by `format_resume_for_ai`. -/
def formatLines (resume_data : PyVal) : Except String (List (List Char)) := do
  let p ← profileSection resume_data
  let w ← seqSection weLabel expEntryLines "workExperiences" resume_data
  let e ← seqSection eduLabel eduEntryLines "educations" resume_data
  let s ← skillsSection resume_data
  let pj ← seqSection projLabel projEntryLines "projects" resume_data
  pure (p ++ w ++ e ++ s ++ pj)

/-- The function `format_resume_for_ai` (app.py lines 155–222): join the emitted
lines with newlines, or propagate the Python exception. -/
def format_resume_for_ai (resume_data : PyVal) : Except String String :=
  (formatLines resume_data).map fun ls => String.intercalate "\n" (ls.map List.asString)

example :
    format_resume_for_ai (.dict [("profile", .dict [("name", .str "A")])]) =
      .ok "PROFILE:\nName: A\nEmail: N/A\nPhone: N/A\nLocation: N/A\nURL: N/A\nSummary: N/A\n" := by
  rfl

example :
    format_resume_for_ai (.dict [("profile", .str "hi")]) =
      .error "AttributeError: object has no attribute get" := by
  rfl

example :
    format_resume_for_ai
      (.dict [("workExperiences", .list [.dict [("company", .str "Acme"),
        ("descriptions", .list [.str "did X"])]])]) =
      .ok "WORK EXPERIENCE:\nCompany: Acme\nJob Title: N/A\nDate: N/A\nDescriptions:\n- did X\n" := by
  rfl

/-! ## Well-formed resumes and the formatter's guarantees -/

/-- Bind reduction on `Except.ok` (monad plumbing for the proofs below). -/
theorem ok_bind {α β ε : Type} (a : α) (f : α → Except ε β) :
    (Except.ok a >>= f) = f a := rfl

/-- Bind reduction on `Except.error`. -/
theorem error_bind {α β ε : Type} (e : ε) (f : α → Except ε β) :
    ((Except.error e : Except ε α) >>= f) = Except.error e := rfl

/-- Is the value a Python dict? -/
def isDict : PyVal → Bool
  | .dict _ => true
  | _ => false

/-- Is the value a Python list? -/
def isList : PyVal → Bool
  | .list _ => true
  | _ => false

/-- A well-typed work/education/project entry: a dict whose
`descriptions`, when present, is a list. -/
def wfEntry (v : PyVal) : Bool :=
  match v with
  | .dict kvs =>
    match dictLookup kvs "descriptions" with
    | some d => isList d
    | Option.none => true
  | _ => false

/-- A well-typed entry sequence: a list of well-typed entries. -/
def wfEntrySeq (v : PyVal) : Bool :=
  match v with
  | .list xs => xs.all wfEntry
  | _ => false

/-- The optional key `k`, when present, holds a well-typed entry sequence. -/
def wfOptKey (kvs : List (String × PyVal)) (k : String) : Bool :=
  match dictLookup kvs k with
  | Option.none => true
  | some v => wfEntrySeq v

/-- A well-typed `skills` field: a dict whose `featuredSkills`, when
present, is a list of dicts, and whose `descriptions`, when present, is
a list. -/
def wfSkills (kvs : List (String × PyVal)) : Bool :=
  match dictLookup kvs "skills" with
  | Option.none => true
  | some (.dict sk) =>
    (match dictLookup sk "featuredSkills" with
     | Option.none => true
     | some (.list fs) => fs.all isDict
     | some _ => false) &&
    (match dictLookup sk "descriptions" with
     | Option.none => true
     | some v => isList v)
  | some _ => false

/-- A structurally well-typed resume: a dict whose present top-level
fields have the types the formatter expects (all sub-fields may be
missing arbitrarily). -/
def wfResume : PyVal → Bool
  | .dict kvs =>
    (match dictLookup kvs "profile" with
     | Option.none => true
     | some p => isDict p) &&
    wfOptKey kvs "workExperiences" && wfOptKey kvs "educations" &&
    wfSkills kvs && wfOptKey kvs "projects"
  | _ => false

/-- Explicit character list of the PROFILE label. -/
theorem profileLabel_eq : profileLabel = ['P', 'R', 'O', 'F', 'I', 'L', 'E', ':'] := rfl

/-- Explicit character list of the WORK EXPERIENCE label. -/
theorem weLabel_eq :
    weLabel = ['W', 'O', 'R', 'K', ' ', 'E', 'X', 'P', 'E', 'R', 'I', 'E', 'N', 'C', 'E', ':'] := rfl

/-- Explicit character list of the EDUCATION label. -/
theorem eduLabel_eq : eduLabel = ['E', 'D', 'U', 'C', 'A', 'T', 'I', 'O', 'N', ':'] := rfl

/-- Explicit character list of the SKILLS label. -/
theorem skillsLabel_eq : skillsLabel = ['S', 'K', 'I', 'L', 'L', 'S', ':'] := rfl

/-- Explicit character list of the PROJECTS label. -/
theorem projLabel_eq : projLabel = ['P', 'R', 'O', 'J', 'E', 'C', 'T', 'S', ':'] := rfl

/-- A line whose first two characters differ from every label's first
two characters is not a label, whatever its tail. -/
theorem isLabel_two (c₁ c₂ : Char) (r : List Char)
    (h : ¬((c₁ = 'P' ∧ c₂ = 'R') ∨ (c₁ = 'W' ∧ c₂ = 'O') ∨
           (c₁ = 'E' ∧ c₂ = 'D') ∨ (c₁ = 'S' ∧ c₂ = 'K'))) :
    isLabel (c₁ :: c₂ :: r) = false := by
  simp only [isLabel, profileLabel_eq, weLabel_eq, eduLabel_eq, skillsLabel_eq, projLabel_eq,
    Bool.or_eq_false_iff, decide_eq_false_iff_not, List.cons.injEq, not_and]
  push_neg at h
  tauto

@[simp] theorem isLabel_nil : isLabel [] = false := by decide

@[simp] theorem isLabel_profileLabel : isLabel profileLabel = true := by decide

@[simp] theorem isLabel_weLabel : isLabel weLabel = true := by decide

@[simp] theorem isLabel_eduLabel : isLabel eduLabel = true := by decide

@[simp] theorem isLabel_skillsLabel : isLabel skillsLabel = true := by decide

@[simp] theorem isLabel_projLabel : isLabel projLabel = true := by decide

/-- A line whose first character is none of `P`, `W`, `E`, `S` is not a
label. -/
theorem isLabel_one (c : Char) (r : List Char)
    (h : ¬(c = 'P' ∨ c = 'W' ∨ c = 'E' ∨ c = 'S')) :
    isLabel (c :: r) = false := by
  simp only [isLabel, profileLabel_eq, weLabel_eq, eduLabel_eq, skillsLabel_eq, projLabel_eq,
    Bool.or_eq_false_iff, decide_eq_false_iff_not, List.cons.injEq, not_and]
  push_neg at h
  tauto

@[simp] theorem isLabel_Na (r : List Char) : isLabel ('N' :: 'a' :: r) = false :=
  isLabel_two 'N' 'a' r (by decide)

@[simp] theorem isLabel_Em (r : List Char) : isLabel ('E' :: 'm' :: r) = false :=
  isLabel_two 'E' 'm' r (by decide)

@[simp] theorem isLabel_Ph (r : List Char) : isLabel ('P' :: 'h' :: r) = false :=
  isLabel_two 'P' 'h' r (by decide)

@[simp] theorem isLabel_Lo (r : List Char) : isLabel ('L' :: 'o' :: r) = false :=
  isLabel_two 'L' 'o' r (by decide)

@[simp] theorem isLabel_UR (r : List Char) : isLabel ('U' :: 'R' :: r) = false :=
  isLabel_two 'U' 'R' r (by decide)

@[simp] theorem isLabel_Su (r : List Char) : isLabel ('S' :: 'u' :: r) = false :=
  isLabel_two 'S' 'u' r (by decide)

@[simp] theorem isLabel_Co (r : List Char) : isLabel ('C' :: 'o' :: r) = false :=
  isLabel_one 'C' ('o' :: r) (by decide)

@[simp] theorem isLabel_Jo (r : List Char) : isLabel ('J' :: 'o' :: r) = false :=
  isLabel_one 'J' ('o' :: r) (by decide)

@[simp] theorem isLabel_Da (r : List Char) : isLabel ('D' :: 'a' :: r) = false :=
  isLabel_one 'D' ('a' :: r) (by decide)

@[simp] theorem isLabel_De (r : List Char) : isLabel ('D' :: 'e' :: r) = false :=
  isLabel_one 'D' ('e' :: r) (by decide)

@[simp] theorem isLabel_Sc (r : List Char) : isLabel ('S' :: 'c' :: r) = false :=
  isLabel_two 'S' 'c' r (by decide)

@[simp] theorem isLabel_Pr (r : List Char) : isLabel ('P' :: 'r' :: r) = false :=
  isLabel_two 'P' 'r' r (by decide)

@[simp] theorem isLabel_dash (r : List Char) : isLabel ('-' :: r) = false :=
  isLabel_one '-' r (by decide)

/-- The PROFILE section of a well-typed resume: it succeeds, its label
appears iff the `profile` key is present, and a missing `name` sub-field
renders the `N/A` placeholder. -/
theorem profileSection_spec (kvs : List (String × PyVal))
    (h : ∀ p, dictLookup kvs "profile" = some p → isDict p = true) :
    ∃ ls, profileSection (.dict kvs) = .ok ls ∧
      ls.filter isLabel = (if (dictLookup kvs "profile").isSome then [profileLabel] else []) ∧
      (∀ ps, dictLookup kvs "profile" = some (.dict ps) →
        dictLookup ps "name" = Option.none → "Name: N/A".toList ∈ ls) := by
  cases hp : dictLookup kvs "profile" with
  | none =>
    refine ⟨[], ?_, by simp [hp], by simp [hp]⟩
    simp [profileSection, pyIn, hp, ok_bind, pure, Except.pure]
  | some p =>
    have hd := h p hp
    cases p with
    | dict ps =>
      refine ⟨[profileLabel,
        "Name: ".toList ++ pyStr ((dictLookup ps "name").getD naDefault),
        "Email: ".toList ++ pyStr ((dictLookup ps "email").getD naDefault),
        "Phone: ".toList ++ pyStr ((dictLookup ps "phone").getD naDefault),
        "Location: ".toList ++ pyStr ((dictLookup ps "location").getD naDefault),
        "URL: ".toList ++ pyStr ((dictLookup ps "url").getD naDefault),
        "Summary: ".toList ++ pyStr ((dictLookup ps "summary").getD naDefault),
        []], ?_, ?_, ?_⟩
      · simp [profileSection, pyIn, hp, ok_bind, pyGetItem, pyGet, pure, Except.pure]
      · simp [hp, List.filter]
      · intro ps' hps' hname
        obtain rfl : ps = ps' :=
          PyVal.dict.inj (Option.some.inj hps')
        rw [hname]
        simp [naDefault, pyStr]
    | none => simp [isDict] at hd
    | bool b => simp [isDict] at hd
    | int i => simp [isDict] at hd
    | str s => simp [isDict] at hd
    | list xs => simp [isDict] at hd

/-- The `Descriptions:` block of a well-typed entry succeeds and emits
no label line. -/
theorem descriptionLines_spec (e : PyVal) (h : wfEntry e = true) :
    ∃ ls, descriptionLines e = .ok ls ∧ ls.filter isLabel = [] := by
  cases e with
  | dict kvs =>
    cases hd : dictLookup kvs "descriptions" with
    | none =>
      exact ⟨[], by simp [descriptionLines, pyIn, hd, ok_bind, pure, Except.pure], by simp⟩
    | some d =>
      have hl : isList d = true := by
        unfold wfEntry at h
        dsimp only at h
        rw [hd] at h
        exact h
      cases d with
      | list ds =>
        by_cases ht : pyTruthy (.list ds) = true
        · refine ⟨"Descriptions:".toList :: ds.map fun dd => '-' :: ' ' :: pyStr dd, ?_, ?_⟩
          · simp [descriptionLines, pyIn, hd, ok_bind, pyGetItem, ht, pyIterElems,
              pure, Except.pure]
          · rw [List.filter_cons]
            have : isLabel ("Descriptions:".toList) = false := by decide
            rw [this]
            simp [List.filter_eq_nil_iff]
        · refine ⟨[], ?_, by simp⟩
          simp [descriptionLines, pyIn, hd, ok_bind, pyGetItem,
            Bool.not_eq_true _ ▸ ht, pure, Except.pure]
      | none => simp [isList] at hl
      | bool b => simp [isList] at hl
      | int i => simp [isList] at hl
      | str s => simp [isList] at hl
      | dict kvs2 => simp [isList] at hl
  | none => simp [wfEntry] at h
  | bool b => simp [wfEntry] at h
  | int i => simp [wfEntry] at h
  | str s => simp [wfEntry] at h
  | list xs => simp [wfEntry] at h

/-- A WORK EXPERIENCE entry of a well-typed resume succeeds, emits no
label line, and renders a missing `company` as `N/A`. -/
theorem expEntryLines_spec (e : PyVal) (h : wfEntry e = true) :
    ∃ ls, expEntryLines e = .ok ls ∧ ls.filter isLabel = [] ∧
      (∀ kvs, e = .dict kvs → dictLookup kvs "company" = Option.none →
        "Company: N/A".toList ∈ ls) := by
  cases e with
  | dict kvs =>
    obtain ⟨ds, hds, hfil⟩ := descriptionLines_spec (.dict kvs) h
    refine ⟨("Company: ".toList ++ pyStr ((dictLookup kvs "company").getD naDefault)) ::
      ("Job Title: ".toList ++ pyStr ((dictLookup kvs "jobTitle").getD naDefault)) ::
      ("Date: ".toList ++ pyStr ((dictLookup kvs "date").getD naDefault)) :: (ds ++ [[]]),
      ?_, ?_, ?_⟩
    · simp [expEntryLines, pyGet, hds, ok_bind, pure, Except.pure]
    · simp [List.filter_cons, List.filter_append, hfil]
    · intro kvs' hkvs hc
      obtain rfl : kvs = kvs' := PyVal.dict.inj hkvs
      rw [hc]
      simp [naDefault, pyStr]
  | none => simp [wfEntry] at h
  | bool b => simp [wfEntry] at h
  | int i => simp [wfEntry] at h
  | str s => simp [wfEntry] at h
  | list xs => simp [wfEntry] at h

/-- An EDUCATION entry of a well-typed resume succeeds and emits no
label line. -/
theorem eduEntryLines_spec (e : PyVal) (h : wfEntry e = true) :
    ∃ ls, eduEntryLines e = .ok ls ∧ ls.filter isLabel = [] := by
  cases e with
  | dict kvs =>
    obtain ⟨ds, hds, hfil⟩ := descriptionLines_spec (.dict kvs) h
    refine ⟨("School: ".toList ++ pyStr ((dictLookup kvs "school").getD naDefault)) ::
      ("Degree: ".toList ++ pyStr ((dictLookup kvs "degree").getD naDefault)) ::
      ("Date: ".toList ++ pyStr ((dictLookup kvs "date").getD naDefault)) :: (ds ++ [[]]),
      ?_, ?_⟩
    · simp [eduEntryLines, pyGet, hds, ok_bind, pure, Except.pure]
    · simp [List.filter_cons, List.filter_append, hfil]
  | none => simp [wfEntry] at h
  | bool b => simp [wfEntry] at h
  | int i => simp [wfEntry] at h
  | str s => simp [wfEntry] at h
  | list xs => simp [wfEntry] at h

/-- A PROJECTS entry of a well-typed resume succeeds and emits no label
line. -/
theorem projEntryLines_spec (e : PyVal) (h : wfEntry e = true) :
    ∃ ls, projEntryLines e = .ok ls ∧ ls.filter isLabel = [] := by
  cases e with
  | dict kvs =>
    obtain ⟨ds, hds, hfil⟩ := descriptionLines_spec (.dict kvs) h
    refine ⟨("Project: ".toList ++ pyStr ((dictLookup kvs "project").getD naDefault)) ::
      ("Date: ".toList ++ pyStr ((dictLookup kvs "date").getD naDefault)) :: (ds ++ [[]]),
      ?_, ?_⟩
    · simp [projEntryLines, pyGet, hds, ok_bind, pure, Except.pure]
    · simp [List.filter_cons, List.filter_append, hfil]
  | none => simp [wfEntry] at h
  | bool b => simp [wfEntry] at h
  | int i => simp [wfEntry] at h
  | str s => simp [wfEntry] at h
  | list xs => simp [wfEntry] at h

/-- Rendering a list of entries with a per-entry function that succeeds
without label lines itself succeeds without label lines. -/
theorem entriesLines_spec (f : PyVal → Except String (List (List Char)))
    (hf : ∀ e, wfEntry e = true → ∃ ls, f e = .ok ls ∧ ls.filter isLabel = []) :
    ∀ items : List PyVal, items.all wfEntry = true →
      ∃ ls, entriesLines f items = .ok ls ∧ ls.filter isLabel = [] := by
  intro items
  induction items with
  | nil => exact fun _ => ⟨[], by simp [entriesLines, pure, Except.pure], by simp⟩
  | cons e rest ih =>
    intro hall
    rw [List.all_cons, Bool.and_eq_true] at hall
    obtain ⟨ls1, hls1, hf1⟩ := hf e hall.1
    obtain ⟨ls2, hls2, hf2⟩ := ih hall.2
    refine ⟨ls1 ++ ls2, ?_, ?_⟩
    · simp [entriesLines, hls1, hls2, ok_bind, pure, Except.pure]
    · simp [List.filter_append, hf1, hf2]

/-- Is key `k` present with a truthy value? (The guard of the WORK
EXPERIENCE / EDUCATION / PROJECTS sections.) -/
def truthyKey (kvs : List (String × PyVal)) (k : String) : Bool :=
  match dictLookup kvs k with
  | some v => pyTruthy v
  | Option.none => false

/-- A guarded entry section of a well-typed resume succeeds; its label
appears exactly when the key is present with a truthy value. -/
theorem seqSection_spec (label : List Char) (f : PyVal → Except String (List (List Char)))
    (key : String) (kvs : List (String × PyVal))
    (hlab : isLabel label = true)
    (hf : ∀ e, wfEntry e = true → ∃ ls, f e = .ok ls ∧ ls.filter isLabel = [])
    (hwf : wfOptKey kvs key = true) :
    ∃ ls, seqSection label f key (.dict kvs) = .ok ls ∧
      ls.filter isLabel = (if truthyKey kvs key then [label] else []) := by
  cases hk : dictLookup kvs key with
  | none =>
    refine ⟨[], ?_, by simp [truthyKey, hk]⟩
    simp [seqSection, pyIn, hk, ok_bind, pure, Except.pure]
  | some v =>
    have hv : wfEntrySeq v = true := by
      unfold wfOptKey at hwf
      rw [hk] at hwf
      exact hwf
    cases v with
    | list xs =>
      by_cases ht : pyTruthy (.list xs) = true
      · have hall : xs.all wfEntry = true := by
          unfold wfEntrySeq at hv
          exact hv
        obtain ⟨ls, hls, hfil⟩ := entriesLines_spec f hf xs hall
        refine ⟨label :: ls, ?_, ?_⟩
        · simp [seqSection, pyIn, hk, ok_bind, pyGetItem, ht, pyIterElems, hls,
            pure, Except.pure]
        · simp [List.filter_cons, hlab, hfil, truthyKey, hk, ht]
      · refine ⟨[], ?_, ?_⟩
        · simp [seqSection, pyIn, hk, ok_bind, pyGetItem, Bool.not_eq_true _ ▸ ht,
            pure, Except.pure]
        · simp [truthyKey, hk, Bool.not_eq_true _ ▸ ht]
    | none => simp [wfEntrySeq] at hv
    | bool b => simp [wfEntrySeq] at hv
    | int i => simp [wfEntrySeq] at hv
    | str s => simp [wfEntrySeq] at hv
    | dict kvs2 => simp [wfEntrySeq] at hv

/-- Featured-skill lines of a list of dict entries: succeeds and emits
no label line. -/
theorem featuredSkillLines_spec :
    ∀ items : List PyVal, items.all isDict = true →
      ∃ ls, featuredSkillLines items = .ok ls ∧ ls.filter isLabel = [] := by
  intro items
  induction items with
  | nil => exact fun _ => ⟨[], by simp [featuredSkillLines, pure, Except.pure], by simp⟩
  | cons e rest ih =>
    intro hall
    rw [List.all_cons, Bool.and_eq_true] at hall
    obtain ⟨ls2, hls2, hf2⟩ := ih hall.2
    cases e with
    | dict kvs =>
      refine ⟨(if pyTruthy ((dictLookup kvs "skill").getD PyVal.none)
          then [('-' :: ' ' :: pyStr ((dictLookup kvs "skill").getD PyVal.none))] else []) ++ ls2,
        ?_, ?_⟩
      · simp [featuredSkillLines, pyGet, hls2, ok_bind, pure, Except.pure]
      · rw [List.filter_append, hf2]
        by_cases ht : pyTruthy ((dictLookup kvs "skill").getD PyVal.none) = true
        · simp [ht]
        · simp [Bool.not_eq_true _ ▸ ht]
    | none => simp [isDict] at hall
    | bool b => simp [isDict] at hall
    | int i => simp [isDict] at hall
    | str s => simp [isDict] at hall
    | list xs => simp [isDict] at hall

/-- The featured-skills block of a well-typed `skills` dict succeeds and
emits no label line. -/
theorem skillsFeatured_spec (skkvs : List (String × PyVal))
    (h : (match dictLookup skkvs "featuredSkills" with
          | Option.none => true
          | some (.list fs) => fs.all isDict
          | some _ => false) = true) :
    ∃ ls, skillsFeatured (.dict skkvs) = .ok ls ∧ ls.filter isLabel = [] := by
  cases hfs : dictLookup skkvs "featuredSkills" with
  | none =>
    refine ⟨[], ?_, by simp⟩
    simp [skillsFeatured, pyIn, hfs, ok_bind, pure, Except.pure]
  | some fs =>
    rw [hfs] at h
    cases fs with
    | list fss =>
      obtain ⟨fl, hfl, hflf⟩ := featuredSkillLines_spec fss h
      refine ⟨fl, ?_, hflf⟩
      simp [skillsFeatured, pyIn, hfs, ok_bind, pyGetItem, pyIterElems, hfl]
    | none => simp at h
    | bool b => simp at h
    | int i => simp at h
    | str s => simp at h
    | dict d2 => simp at h

/-- The skill-descriptions block of a well-typed `skills` dict succeeds
and emits no label line. -/
theorem skillsDescs_spec (skkvs : List (String × PyVal))
    (h : (match dictLookup skkvs "descriptions" with
          | Option.none => true
          | some v => isList v) = true) :
    ∃ ls, skillsDescs (.dict skkvs) = .ok ls ∧ ls.filter isLabel = [] := by
  cases hds : dictLookup skkvs "descriptions" with
  | none =>
    refine ⟨[], ?_, by simp⟩
    simp [skillsDescs, pyIn, hds, ok_bind, pure, Except.pure]
  | some ds =>
    rw [hds] at h
    cases ds with
    | list dss =>
      refine ⟨dss.map fun d => '-' :: ' ' :: pyStr d, ?_, ?_⟩
      · simp [skillsDescs, pyIn, hds, ok_bind, pyGetItem, pyIterElems, pure, Except.pure]
      · simp [List.filter_eq_nil_iff]
    | none => simp [isList] at h
    | bool b => simp [isList] at h
    | int i => simp [isList] at h
    | str s => simp [isList] at h
    | dict d2 => simp [isList] at h

/-- The SKILLS section of a well-typed resume succeeds; its label
appears exactly when the `skills` key is present (no truthiness check in
the source). -/
theorem skillsSection_spec (kvs : List (String × PyVal)) (h : wfSkills kvs = true) :
    ∃ ls, skillsSection (.dict kvs) = .ok ls ∧
      ls.filter isLabel = (if (dictLookup kvs "skills").isSome then [skillsLabel] else []) := by
  cases hk : dictLookup kvs "skills" with
  | none =>
    refine ⟨[], ?_, by simp [hk]⟩
    simp [skillsSection, pyIn, hk, ok_bind, pure, Except.pure]
  | some sk =>
    unfold wfSkills at h
    rw [hk] at h
    cases sk with
    | dict skkvs =>
      rw [Bool.and_eq_true] at h
      obtain ⟨fl, hfl, hflf⟩ := skillsFeatured_spec skkvs h.1
      obtain ⟨dl, hdl, hdlf⟩ := skillsDescs_spec skkvs h.2
      refine ⟨skillsLabel :: (fl ++ dl ++ [[]]), ?_, ?_⟩
      · simp [skillsSection, pyIn, hk, ok_bind, pyGetItem, hfl, hdl, pure, Except.pure]
      · simp [List.filter_cons, List.filter_append, hflf, hdlf, hk]
    | none => simp at h
    | bool b => simp at h
    | int i => simp at h
    | str s => simp at h
    | list xs => simp at h

/-- The labels a well-typed resume's formatted output carries, in the
fixed source order: PROFILE and SKILLS are guarded by key presence
alone, the three entry sections also by truthiness. -/
def expectedLabels (kvs : List (String × PyVal)) : List (List Char) :=
  (if (dictLookup kvs "profile").isSome then [profileLabel] else []) ++
  (if truthyKey kvs "workExperiences" then [weLabel] else []) ++
  (if truthyKey kvs "educations" then [eduLabel] else []) ++
  (if (dictLookup kvs "skills").isSome then [skillsLabel] else []) ++
  (if truthyKey kvs "projects" then [projLabel] else [])

/-- Conjunction of the well-formedness components, unfolded for reuse. -/
theorem wfResume_dict {kvs : List (String × PyVal)} (h : wfResume (.dict kvs) = true) :
    (∀ p, dictLookup kvs "profile" = some p → isDict p = true) ∧
    wfOptKey kvs "workExperiences" = true ∧ wfOptKey kvs "educations" = true ∧
    wfSkills kvs = true ∧ wfOptKey kvs "projects" = true := by
  unfold wfResume at h
  simp only [Bool.and_eq_true] at h
  refine ⟨?_, h.1.1.1.2, h.1.1.2, h.1.2, h.2⟩
  intro p hp
  have h0 := h.1.1.1.1
  rw [hp] at h0
  exact h0

/-- Master lemma: on a well-typed resume the formatter succeeds, the
label lines of its output are exactly `expectedLabels` in order, and a
profile present without a `name` key renders the `Name: N/A` line. -/
theorem formatLines_wf (kvs : List (String × PyVal)) (h : wfResume (.dict kvs) = true) :
    ∃ ls, formatLines (.dict kvs) = .ok ls ∧
      ls.filter isLabel = expectedLabels kvs ∧
      (∀ ps, dictLookup kvs "profile" = some (.dict ps) →
        dictLookup ps "name" = Option.none → "Name: N/A".toList ∈ ls) := by
  obtain ⟨hp, hw, he, hs, hpj⟩ := wfResume_dict h
  obtain ⟨pls, hpls, hpf, hpna⟩ := profileSection_spec kvs hp
  obtain ⟨wls, hwls, hwf⟩ := seqSection_spec weLabel expEntryLines "workExperiences" kvs
    (by decide) (fun e che => (expEntryLines_spec e che).imp fun ls hls => ⟨hls.1, hls.2.1⟩) hw
  obtain ⟨els, hels, hef⟩ := seqSection_spec eduLabel eduEntryLines "educations" kvs
    (by decide) eduEntryLines_spec he
  obtain ⟨sls, hsls, hsf⟩ := skillsSection_spec kvs hs
  obtain ⟨pjls, hpjls, hpjf⟩ := seqSection_spec projLabel projEntryLines "projects" kvs
    (by decide) projEntryLines_spec hpj
  refine ⟨pls ++ wls ++ els ++ sls ++ pjls, ?_, ?_, ?_⟩
  · simp [formatLines, hpls, hwls, hels, hsls, hpjls, ok_bind, pure, Except.pure]
  · simp only [List.filter_append, hpf, hwf, hef, hsf, hpjf, expectedLabels,
      List.append_assoc]
  · intro ps hps hname
    exact List.mem_append_left _ (List.mem_append_left _ (List.mem_append_left _
      (List.mem_append_left _ (hpna ps hps hname))))

/-- C2 counterexample: the claim that `format_resume_for_ai` never
raises on malformed input is false — a `profile` value that is a string
instead of a dict makes Python call `.get` on a `str`, raising
`AttributeError` (here: the `Except.error` value). -/
theorem format_malformed_raises_cex :
    format_resume_for_ai (.dict [("profile", .str "hi")]) =
      .error "AttributeError: object has no attribute get" ∧
    format_resume_for_ai (.dict [("workExperiences", .list [.str "x"])]) =
      .error "AttributeError: object has no attribute get" := by
  exact ⟨rfl, rfl⟩

/-- C2 amended: on every resume whose *present* fields are well-typed
(`profile` a dict, the three entry sequences lists of dicts with
list-typed `descriptions`, `skills` a dict with list-typed sub-fields) —
with any or all keys and sub-fields missing — the formatter returns
normally; missing labeled sub-fields render the `N/A` placeholder
(`profileSection_spec` / `expEntryLines_spec`). On ill-typed present
fields the formatter can instead raise an `AttributeError`. -/
theorem format_wf_total (r : PyVal) (h : wfResume r = true) :
    ∃ s, format_resume_for_ai r = .ok s := by
  cases r with
  | dict kvs =>
    obtain ⟨ls, hls, -, -⟩ := formatLines_wf kvs h
    exact ⟨String.intercalate "\n" (ls.map List.asString), by
      simp [format_resume_for_ai, hls, Except.map]⟩
  | none => simp [wfResume] at h
  | bool b => simp [wfResume] at h
  | int i => simp [wfResume] at h
  | str s => simp [wfResume] at h
  | list xs => simp [wfResume] at h

/-- Witness for the amended C2 at a concrete well-typed resume with
missing sub-fields. -/
theorem format_wf_total_witness :
    wfResume (.dict [("profile", .dict []),
      ("workExperiences", .list [.dict [("company", .str "Acme")]])]) = true ∧
    ∃ s, format_resume_for_ai (.dict [("profile", .dict []),
      ("workExperiences", .list [.dict [("company", .str "Acme")]])]) = .ok s :=
  ⟨by decide,
   format_wf_total (.dict [("profile", .dict []),
     ("workExperiences", .list [.dict [("company", .str "Acme")]])]) (by decide)⟩

/-- C7 counterexample: the claim that each section label appears exactly
once whenever the corresponding source field is present is false — a
present-but-empty `educations` list is falsy, so the EDUCATION label is
not emitted at all. -/
theorem format_label_presence_cex :
    (dictLookup [("educations", PyVal.list [])] "educations").isSome = true ∧
    formatLines (.dict [("educations", .list [])]) = .ok [] ∧
    format_resume_for_ai (.dict [("educations", .list [])]) = .ok "" :=
  ⟨rfl, rfl, rfl⟩

/-- C7 amended: on well-typed resumes the emitted label lines are
exactly `expectedLabels`, in the fixed order PROFILE, WORK EXPERIENCE,
EDUCATION, SKILLS, PROJECTS — each present section's label exactly once,
where "present" means key present for `profile`/`skills` but key present
*with a truthy (nonempty) value* for the three entry sections. A missing
labeled sub-field renders the `N/A` placeholder (shown universally for
`profile.name` and concretely for `jobTitle`/`date`); a missing
`descriptions`/`featuredSkills` block is omitted, not rendered `N/A`. -/
theorem format_section_labels :
    (∀ kvs : List (String × PyVal), wfResume (.dict kvs) = true →
      ∃ ls, formatLines (.dict kvs) = .ok ls ∧
        ls.filter isLabel = expectedLabels kvs ∧
        (∀ ps, dictLookup kvs "profile" = some (.dict ps) →
          dictLookup ps "name" = Option.none → "Name: N/A".toList ∈ ls)) ∧
    format_resume_for_ai
      (.dict [("workExperiences", .list [.dict [("company", .str "Acme")]])]) =
      .ok "WORK EXPERIENCE:\nCompany: Acme\nJob Title: N/A\nDate: N/A\n" :=
  ⟨formatLines_wf, rfl⟩

/-- Witness for the amended C7 at a concrete resume with a nameless
profile and an empty (falsy) educations list. -/
theorem format_section_labels_witness :
    wfResume (.dict [("profile", .dict []), ("educations", .list [])]) = true ∧
    ∃ ls, formatLines (.dict [("profile", .dict []), ("educations", .list [])]) = .ok ls ∧
      ls.filter isLabel =
        expectedLabels [("profile", PyVal.dict []), ("educations", PyVal.list [])] ∧
      (∀ ps, dictLookup [("profile", PyVal.dict []), ("educations", PyVal.list [])]
          "profile" = some (.dict ps) →
        dictLookup ps "name" = Option.none → "Name: N/A".toList ∈ ls) :=
  ⟨by decide, format_section_labels.1 _ (by decide)⟩

/-! ## The `/api/analyze` handler body (app.py lines 37–153)

The Flask plumbing is the boundary: the handler is modelled as a
function of the configured-key flag, the JSON-decoded request body and
the outcome of the single external model call; the surrounding
`try/except` blocks become the explicit error branches.  `modelCalled`
records whether the external call was reached. -/

/-- JSON rendering of the parser's result, as returned to the client. -/
def tcToPy (tc : TailoredContent) : PyVal :=
  .dict [("summary", .str tc.summary),
    ("workExperience", .list (tc.workExperience.map fun e =>
      .dict [("company", .str e.company),
             ("bulletPoints", .list (e.bulletPoints.map .str))]))]

/-- The 500 body for a missing API key (app.py lines 41–45). -/
def apiKeyErrBody : List (String × PyVal) :=
  [("error", .str "OpenAI API key not found. Please check your .env file."),
   ("details", .str "Add OPENAI_API_KEY=your_key_here to your .env file")]

/-- The 400 body for a missing resume/jobDescription (app.py line 50). -/
def missingBody : List (String × PyVal) :=
  [("error", .str "Missing resume or job description data")]

/-- The catch-all 500 body (app.py lines 147–153). -/
def genericErrBody (e : String) : List (String × PyVal) :=
  [("error", .str e), ("success", .bool false), ("tailoredContent", .none)]

/-- The OpenAI-failure 500 body (app.py lines 139–145). -/
def openaiErrBody (oe : String) : List (String × PyVal) :=
  [("error", .str ("OpenAI API error: " ++ oe)),
   ("success", .bool false), ("tailoredContent", .none)]

/-- An HTTP response of the handler plus whether the model was called. -/
structure AnalyzeResult where
  status : Nat
  body : List (String × PyVal)
  modelCalled : Bool

/-- The handler `analyze_resume` (app.py lines 37–153): key check, body validation
with Python short-circuit semantics, formatting, the single model call,
parsing; every raised exception is caught and turned into a 500. -/
def analyze_resume (apiKeyConfigured : Bool) (data : PyVal)
    (modelReply : Except String String) : AnalyzeResult :=
  if !apiKeyConfigured then ⟨500, apiKeyErrBody, false⟩
  else if !pyTruthy data then ⟨400, missingBody, false⟩
  else
    match pyIn "resume" data with
    | .error e => ⟨500, genericErrBody e, false⟩
    | .ok hasR =>
      if !hasR then ⟨400, missingBody, false⟩
      else
        match pyIn "jobDescription" data with
        | .error e => ⟨500, genericErrBody e, false⟩
        | .ok hasJ =>
          if !hasJ then ⟨400, missingBody, false⟩
          else
            match pyGetItem data "resume" with
            | .error e => ⟨500, genericErrBody e, false⟩
            | .ok resume_data =>
              match pyGetItem data "jobDescription" with
              | .error e => ⟨500, genericErrBody e, false⟩
              | .ok _job =>
                match format_resume_for_ai resume_data with
                | .error e => ⟨500, genericErrBody e, false⟩
                | .ok _resume_text =>
                  match modelReply with
                  | .error oe => ⟨500, openaiErrBody oe, true⟩
                  | .ok ai_content =>
                    ⟨200, [("success", .bool true),
                      ("tailoredContent", tcToPy (parse_ai_response ai_content))], true⟩

/-- C8: with the API key configured, any JSON-object body missing the
`resume` key or the `jobDescription` key yields status 400 with an
`error` field, and the model call is never reached.  (Without the key
the handler returns its configuration 500 before reading the body — the
spec lists that case separately.) -/
theorem analyze_missing_key_400 (kvs : List (String × PyVal))
    (modelReply : Except String String)
    (h : dictLookup kvs "resume" = Option.none ∨
         dictLookup kvs "jobDescription" = Option.none) :
    (analyze_resume true (.dict kvs) modelReply).status = 400 ∧
    (dictLookup (analyze_resume true (.dict kvs) modelReply).body "error").isSome = true ∧
    (analyze_resume true (.dict kvs) modelReply).modelCalled = false := by
  by_cases ht : pyTruthy (.dict kvs) = true
  · rcases h with h | h
    · simp [analyze_resume, ht, pyIn, h, missingBody, dictLookup]
    · cases hr : (dictLookup kvs "resume").isSome
      · simp [analyze_resume, ht, pyIn, hr, missingBody, dictLookup]
      · simp [analyze_resume, ht, pyIn, hr, h, missingBody, dictLookup]
  · rw [Bool.not_eq_true] at ht
    simp [analyze_resume, ht, missingBody, dictLookup]

/-- Witness for C8 at a concrete body missing `jobDescription`. -/
theorem analyze_missing_key_400_witness :
    (analyze_resume true (.dict [("resume", .str "r")]) (.ok "x")).status = 400 ∧
    (dictLookup (analyze_resume true (.dict [("resume", .str "r")]) (.ok "x")).body
      "error").isSome = true ∧
    (analyze_resume true (.dict [("resume", .str "r")]) (.ok "x")).modelCalled = false :=
  analyze_missing_key_400 [("resume", .str "r")] (.ok "x") (Or.inr rfl)
